import Mathlib

/-!
Verification of the tag-based chatbot framework (`oxycsbot.py`,
`specific_word_detection.py`): a shallow embedding of the `ChatBot`
state-machine engine, the `OxyCSBot` concrete bot, and the
emotion-word lookup helper, together with proofs of the specified
properties.

Modelling conventions:
* Python strings are Lean `String`s; `str.lower`/`str.upper` are modelled
  on the ASCII range (all phrases and canned responses in the program are
  ASCII).
* The regular-expression search `re.search(r'\b' + phrase + r'\b', msg)`
  is modelled by an explicit scan over the character list with the
  word-boundary (`\b`) semantics of `[A-Za-z0-9_]` word characters; the
  phrases of the program contain no regex metacharacters.
* `random.choice(xs)` is modelled by an extra `Nat` argument `r`, the
  chosen element being `xs.getD (r % xs.length) ""`.
* A Python function that can return `None` instead of a value of its
  nominal type is modelled with `Option`; an expression that can raise
  (a failed `assert`, a missing attribute) is modelled with `Except`.
-/

set_option autoImplicit false

namespace OxyBot

/-- ASCII lower-casing of one character, as Python `str.lower` acts on
the ASCII range. -/
def pyLower (c : Char) : Char :=
  match c with
  | 'A' => 'a' | 'B' => 'b' | 'C' => 'c' | 'D' => 'd' | 'E' => 'e'
  | 'F' => 'f' | 'G' => 'g' | 'H' => 'h' | 'I' => 'i' | 'J' => 'j'
  | 'K' => 'k' | 'L' => 'l' | 'M' => 'm' | 'N' => 'n' | 'O' => 'o'
  | 'P' => 'p' | 'Q' => 'q' | 'R' => 'r' | 'S' => 's' | 'T' => 't'
  | 'U' => 'u' | 'V' => 'v' | 'W' => 'w' | 'X' => 'x' | 'Y' => 'y'
  | 'Z' => 'z' | d => d

/-- ASCII upper-casing of one character, as Python `str.upper` acts on
the ASCII range. -/
def pyUpper (c : Char) : Char :=
  match c with
  | 'a' => 'A' | 'b' => 'B' | 'c' => 'C' | 'd' => 'D' | 'e' => 'E'
  | 'f' => 'F' | 'g' => 'G' | 'h' => 'H' | 'i' => 'I' | 'j' => 'J'
  | 'k' => 'K' | 'l' => 'L' | 'm' => 'M' | 'n' => 'N' | 'o' => 'O'
  | 'p' => 'P' | 'q' => 'Q' | 'r' => 'R' | 's' => 'S' | 't' => 'T'
  | 'u' => 'U' | 'v' => 'V' | 'w' => 'W' | 'x' => 'X' | 'y' => 'Y'
  | 'z' => 'Z' | d => d

/-- `message.lower()` on whole strings. -/
def pyLowerStr (s : String) : String := String.mk (s.data.map pyLower)

/-- `message.upper()` on whole strings. -/
def pyUpperStr (s : String) : String := String.mk (s.data.map pyUpper)

/-- A regex word character (`\w` = `[A-Za-z0-9_]`). -/
def isWordChar (c : Char) : Bool := c.isAlphanum || c = '_'

/-- Word-character test through an `Option`: the edge of the string
counts as a non-word character for `\b`. -/
def optWord : Option Char → Bool
  | none => false
  | some c => isWordChar c

/-- If `phrase` is a literal prefix of `msg`, return the rest of `msg`. -/
def dropLit : List Char → List Char → Option (List Char)
  | [], ms => some ms
  | _ :: _, [] => none
  | p :: ps, m :: ms => if p = m then dropLit ps ms else none

/-- Does the literal `phrase` match at the current position of `msg`,
with a `\b` word boundary on each side?  `prev` is the character just
before the current position (`none` at the start of the string). -/
def matchHere (prev : Option Char) (phrase msg : List Char) : Bool :=
  match phrase with
  | [] => true
  | c :: rest =>
    match dropLit (c :: rest) msg with
    | none => false
    | some after =>
      (optWord prev != isWordChar c) &&
      (isWordChar (rest.getLastD c) != optWord after.head?)

/-- Scan `msg` for a `\b phrase \b` match, as `re.search` does, trying
every start position from left to right. -/
def searchAux (phrase : List Char) : Option Char → List Char → Bool
  | prev, [] => matchHere prev phrase []
  | prev, m :: ms => matchHere prev phrase (m :: ms) || searchAux phrase (some m) ms

/-- The character just before an occurrence of a phrase at offset
`pre.length`: the last character of `pre` when `pre` is non-empty,
otherwise the ambient previous character `prev` threaded by
`searchAux`.  Used to state what `searchAux` searches for. -/
def lastOr : List Char → Option Char → Option Char
  | [], prev => prev
  | m :: pre, _ => some (pre.getLastD m)

/-- `re.search(r'\b' + phrase + r'\b', msg) is not None`, for literal
phrases without regex metacharacters. -/
def reSearchWB (phrase msg : String) : Bool :=
  searchAux phrase.data none msg.data

/-- `ChatBot._get_tags`: lower-case the message, and for every phrase of
the tag table whose lower-casing occurs in it as a whole word/phrase,
add the phrase's tags to the counter.  The counter is represented by
the list of added tags; the count of a tag is the number of its
occurrences in that list. -/
def get_tags (TAGS : List (String × List String)) (message : String) : List String :=
  (TAGS.filter (fun e => reSearchWB (pyLowerStr e.1) (pyLowerStr message))).flatMap
    (fun e => e.2)

/-- `OxyCSBot.TAGS` after the normalisation done by `_check_tags`
(every plain string value becomes a one-element list).  The source dict
literal writes the key `'bye'` twice (first with value `'success'`,
then with value `'bye'`): the Python dict keeps the first position and
the last value, so the table has 24 entries and `'bye'` maps to `'bye'`. -/
def TAGS : List (String × List String) :=
  [ ("okay", ["success"]),
    ("bye", ["bye"]),
    ("hi", ["hi"]),
    ("hello", ["hi"]),
    ("what\x27s up", ["hi"]),
    ("see ya", ["bye"]),
    ("see you", ["bye"]),
    ("good bye", ["bye"]),
    ("alright then", ["bye"]),
    ("never thought about that", ["bye"]),
    ("thanks", ["thanks"]),
    ("thank you", ["thanks"]),
    ("good idea", ["thanks"]),
    ("I don\x27t know", ["idk"]),
    ("I\x27m confused", ["idk"]),
    ("What should I do", ["idk"]),
    ("idk", ["idk"]),
    ("yes", ["yay"]),
    ("yep", ["yay"]),
    ("of course", ["yay"]),
    ("yeah", ["yay"]),
    ("not really", ["no"]),
    ("no", ["no"]),
    ("nope", ["no"]) ]

/-! ### The emotion-word lookup helper (`specific_word_detection.py`)

The word list `emotions.txt` is not part of the repository, so the word
bank (the keys of the `emotion_word_bank` dict, i.e. the r-stripped
lines of the file) is a parameter `bank` of the embedding. -/

/-- Python whitespace, the separators of `str.split()` with no
arguments. -/
def isPySpace (c : Char) : Bool :=
  c = ' ' || c = '\t' || c = '\n' || c = '\r' || c = '\x0b' || c = '\x0c'

/-- `str.split()` with no arguments on a character list: maximal runs of
non-whitespace characters, empty tokens discarded.  `acc` holds the
reversed current token. -/
def pySplitAcc : List Char → List Char → List (List Char)
  | acc, [] => if acc.isEmpty then [] else [acc.reverse]
  | acc, c :: cs =>
    if isPySpace c then
      if acc.isEmpty then pySplitAcc [] cs else acc.reverse :: pySplitAcc [] cs
    else pySplitAcc (c :: acc) cs

/-- `sentence.split()` as a list of strings. -/
def pySplit (s : String) : List String := (pySplitAcc [] s.data).map String.mk

/-- The `for word in sentenceLower: if word in emotion_word_bank: return True`
loop of `emotion_word_found`; falling off the loop returns Python `None`,
modelled as `none`. -/
def findLoop (bank : List String) : List String → Option Bool
  | [] => none
  | w :: ws => if w ∈ bank then some true else findLoop bank ws

/-- `emotion_word_found(sentence)`: lower-case the sentence, split it on
whitespace, and return `True` (`some true`) as soon as a token is a key
of the word bank; otherwise fall through, returning `None` (`none`),
not `False`. -/
def emotion_word_found (bank : List String) (sentence : String) : Option Bool :=
  findLoop bank (pySplit (pyLowerStr sentence))

/-- Python truthiness of the value returned by `emotion_word_found`,
as used in `if emotion_word_found(message):`. -/
def truthy (o : Option Bool) : Bool := o.getD false

/-! ### The generic `ChatBot` engine -/

/-- The per-conversation mutable state of the engine: `self.state`. -/
structure Engine where
  state : String
deriving DecidableEq, Repr

/-- The immutable configuration a concrete bot supplies to the generic
`ChatBot` machinery: the declared `STATES`, the `default_state`, the
`on_enter_*` producers (two `Nat` arguments model the calls to
`random.choice`; `none` when `on_enter_<s>` is not defined) and the
`finish_*` handlers (`none` when `finish_<manner>` is not defined). -/
structure BotConfig where
  STATES : List String
  default_state : String
  on_enter : String → Nat → Nat → Option String
  finish_fns : String → Option String

/-- `ChatBot.go_to_state(state)`.  In source order: `assert state in
self.STATES`, then `assert state != self.default_state`, then look up
`on_enter_<state>` (an `AttributeError` if missing), call it, and only
then commit `self.state = state`.  The result pairs the reply (or the
raised condition) with the engine state after the call; on any failure
the state is unchanged. -/
def go_to_state (cfg : BotConfig) (e : Engine) (s : String) (r1 r2 : Nat) :
    Except String String × Engine :=
  if s ∈ cfg.STATES then
    if s = cfg.default_state then
      (Except.error "AssertionError: do not call go_to_state on the default state", e)
    else
      match cfg.on_enter s r1 r2 with
      | some resp => (Except.ok resp, ⟨s⟩)
      | none => (Except.error "AttributeError", e)
  else (Except.error "AssertionError: state is not defined", e)

/-- `ChatBot.finish(manner)`: call `finish_<manner>` (an
`AttributeError` if missing), then reset `self.state` to the default
state. -/
def finish (cfg : BotConfig) (e : Engine) (manner : String) :
    Except String String × Engine :=
  match cfg.finish_fns manner with
  | some resp => (Except.ok resp, ⟨cfg.default_state⟩)
  | none => (Except.error "AttributeError", e)

/-! ### The `OxyCSBot` concrete bot -/

def greetings : List String := ["Hello.", "What\x27s up?", "Yo."]

def questions : List String :=
  ["How you doing?", "How are you?", "Are you alright?", "How\x27s it going?"]

def on_enter_hi (r1 r2 : Nat) : String :=
  greetings.getD (r1 % 3) "" ++ " " ++ questions.getD (r2 % 4) ""

def tell_me_more_responses : List String :=
  ["What happened?", "Can you tell me more about it?", "Why?"]

def on_enter_tell_me_more (r1 : Nat) : String :=
  tell_me_more_responses.getD (r1 % 3) ""

/-- The `responses` list of `on_enter_emotion_detection`, in its source
order `[response_emotion0, response_emotion1, response_emotion2]`. -/
def emotion_responses : List String :=
  [ "Oh no, I\x27m sorry about that:/ Why do you feel that way?",
    "I\x27m really sorry to hear that. What are you going to do?",
    "Sounds awful. Let it out, tell me more" ]

def on_enter_emotion_detection (r1 : Nat) : String :=
  emotion_responses.getD (r1 % 3) ""

def anecdote1 : String :=
  "I\x27m sorry:/ I remember one time when my girlfriend was mad at me, I bought her chocolate. I also told her she means so much to me, and that I know I messed up. I gave her time and space, and waited until she came back around. We\x27re still together to this day. I just rambled...but does this help? "

def on_enter_anecdote : String := anecdote1

def suggestion_firsts : List String :=
  ["Um. I have some idea if you need more help.", "Why not talk to her first? "]

def suggestion_seconds : List String :=
  [ "It\x27s not as hard as you think.",
    "Tell her how you feel. It\x27s better to communicate than thinking by yourself." ]

def on_enter_suggestion (r1 r2 : Nat) : String :=
  suggestion_firsts.getD (r1 % 2) "" ++ suggestion_seconds.getD (r2 % 2) ""

def on_enter_feel_better_question : String := "Do you feel better now?"

def on_enter_feels_better : String := "Good to hear! Need anything else?"

/-- Dispatch of `getattr(self, 'on_enter_' + state)` for `OxyCSBot`:
the defined producers, `none` elsewhere (`waiting` is the default state
and has no producer). -/
def oxy_on_enter (s : String) (r1 r2 : Nat) : Option String :=
  match s with
  | "hi" => some (on_enter_hi r1 r2)
  | "tell_me_more" => some (on_enter_tell_me_more r1)
  | "emotion_detection" => some (on_enter_emotion_detection r1)
  | "anecdote" => some on_enter_anecdote
  | "suggestion" => some (on_enter_suggestion r1 r2)
  | "feel_better_question" => some on_enter_feel_better_question
  | "feels_better" => some on_enter_feels_better
  | _ => none

def finish_confused : String := "Sorry, what did you say?"

def finish_success : String :=
  "Awesome:) Glad we could talk this out! I gotta go to some stuff now, later!"

def finish_fail : String := "Sorry man, I don\x27t know what to say."

def finish_thanks : String := "You\x27re always welcome! But I gotta go now, see ya."

/-- Dispatch of `getattr(self, 'finish_' + manner)` for `OxyCSBot`. -/
def oxy_finish_fns (manner : String) : Option String :=
  match manner with
  | "confused" => some finish_confused
  | "success" => some finish_success
  | "fail" => some finish_fail
  | "thanks" => some finish_thanks
  | _ => none

/-- The `OxyCSBot` configuration: its `STATES` list, its default state
`'waiting'` (passed to `ChatBot.__init__`), and its handlers. -/
def oxyConfig : BotConfig where
  STATES :=
    [ "waiting", "hi", "tell_me_more", "emotion_detection", "anecdote",
      "suggestion", "feel_better_question", "feels_better" ]
  default_state := "waiting"
  on_enter := oxy_on_enter
  finish_fns := oxy_finish_fns

/-- The outcome of a Python call as seen by the caller of `respond`:
a returned string, a returned `None` (a fall-through off the end of a
handler), or a raised exception.  Each carries the engine state after
the call. -/
inductive Ret where
  | str : String → Engine → Ret
  | pyNone : Engine → Ret
  | exc : String → Engine → Ret
deriving DecidableEq, Repr

/-- Lift the result of a `go_to_state`/`finish` primitive into a
handler return: `return self.go_to_state(...)` returns the produced
string, and a raised condition propagates. -/
def ofPrim : Except String String × Engine → Ret
  | (Except.ok s, e) => Ret.str s e
  | (Except.error m, e) => Ret.exc m e

/-- `OxyCSBot.respond_from_waiting`.  Note the nested `if` in the
`'hi'` branch: when the message is 20 characters or longer and contains
no emotion word, no `return` statement is reached and the handler
returns Python `None`.  The final `else` calls `self.finish_confused()`
directly (not `self.finish('confused')`), so it does not touch the
state. -/
def respond_from_waiting (bank : List String) (e : Engine) (message : String)
    (tags : List String) (r1 r2 : Nat) : Ret :=
  if truthy (emotion_word_found bank message) then
    ofPrim (go_to_state oxyConfig e "emotion_detection" r1 r2)
  else if "hi" ∈ tags then
    (if message.length < 20 then
      ofPrim (go_to_state oxyConfig e "hi" r1 r2)
    else if truthy (emotion_word_found bank message) then
      ofPrim (go_to_state oxyConfig e "emotion_detection" r1 r2)
    else Ret.pyNone e)
  else if "bye" ∈ tags then ofPrim (finish oxyConfig e "success")
  else Ret.str finish_confused e

def respond_from_emotion_detection (bank : List String) (e : Engine)
    (message : String) (tags : List String) (r1 r2 : Nat) : Ret :=
  if "idk" ∈ tags then ofPrim (go_to_state oxyConfig e "anecdote" r1 r2)
  else if truthy (emotion_word_found bank message) then
    ofPrim (go_to_state oxyConfig e "emotion_detection" r1 r2)
  else ofPrim (go_to_state oxyConfig e "tell_me_more" r1 r2)

def respond_from_hi (e : Engine) (r1 r2 : Nat) : Ret :=
  ofPrim (go_to_state oxyConfig e "tell_me_more" r1 r2)

def respond_from_tell_me_more (e : Engine) (r1 r2 : Nat) : Ret :=
  ofPrim (go_to_state oxyConfig e "emotion_detection" r1 r2)

def respond_from_anecdote (e : Engine) (tags : List String) (r1 r2 : Nat) : Ret :=
  if "yay" ∈ tags then ofPrim (go_to_state oxyConfig e "feels_better" r1 r2)
  else if "no" ∈ tags then ofPrim (go_to_state oxyConfig e "suggestion" r1 r2)
  else if "thanks" ∈ tags then ofPrim (finish oxyConfig e "thanks")
  else ofPrim (go_to_state oxyConfig e "tell_me_more" r1 r2)

def respond_from_suggestion (bank : List String) (e : Engine) (message : String)
    (tags : List String) (r1 r2 : Nat) : Ret :=
  if truthy (emotion_word_found bank message) then
    ofPrim (go_to_state oxyConfig e "emotion_detection" r1 r2)
  else if "thanks" ∈ tags then ofPrim (finish oxyConfig e "thanks")
  else ofPrim (go_to_state oxyConfig e "feel_better_question" r1 r2)

def respond_from_feel_better_question (e : Engine) (tags : List String)
    (r1 r2 : Nat) : Ret :=
  if "yay" ∈ tags then ofPrim (go_to_state oxyConfig e "feels_better" r1 r2)
  else if "no" ∈ tags then ofPrim (go_to_state oxyConfig e "suggestion" r1 r2)
  else if "thanks" ∈ tags then ofPrim (finish oxyConfig e "thanks")
  else ofPrim (go_to_state oxyConfig e "tell_me_more" r1 r2)

def respond_from_feels_better (e : Engine) (tags : List String) (r1 r2 : Nat) : Ret :=
  if "no" ∈ tags then ofPrim (finish oxyConfig e "success")
  else if "yay" ∈ tags then ofPrim (go_to_state oxyConfig e "tell_me_more" r1 r2)
  else if "thanks" ∈ tags then ofPrim (finish oxyConfig e "thanks")
  else ofPrim (go_to_state oxyConfig e "waiting" r1 r2)

/-- `ChatBot.respond(message)`: look up
`respond_from_<self.state>` (an `AttributeError` when the current state
has no handler) and call it with the message and
`self._get_tags(message)`. -/
def respond (bank : List String) (e : Engine) (message : String) (r1 r2 : Nat) : Ret :=
  let tags := get_tags TAGS message
  match e.state with
  | "waiting" => respond_from_waiting bank e message tags r1 r2
  | "hi" => respond_from_hi e r1 r2
  | "tell_me_more" => respond_from_tell_me_more e r1 r2
  | "emotion_detection" => respond_from_emotion_detection bank e message tags r1 r2
  | "anecdote" => respond_from_anecdote e tags r1 r2
  | "suggestion" => respond_from_suggestion bank e message tags r1 r2
  | "feel_better_question" => respond_from_feel_better_question e tags r1 r2
  | "feels_better" => respond_from_feels_better e tags r1 r2
  | _ => Ret.exc "AttributeError" e

/-! ### `_check_tags` and the shape of the `TAGS` class variable -/

/-- A Python value sitting in the `TAGS` dict: a plain string, a list
of tags, a tuple of tags, or anything else. -/
inductive PyVal where
  | pystr : String → PyVal
  | pylist : List String → PyVal
  | pytuple : List String → PyVal
  | pyother : PyVal
deriving DecidableEq, Repr

/-- One pass of the `_check_tags` loop body on a value: a plain string
is rewritten to the singleton list `[tags]`; a list or tuple is kept;
anything else fails the `assert isinstance(tags, (tuple, list))`. -/
def normTagVal : PyVal → Option PyVal
  | PyVal.pystr s => some (PyVal.pylist [s])
  | PyVal.pylist l => some (PyVal.pylist l)
  | PyVal.pytuple l => some (PyVal.pytuple l)
  | PyVal.pyother => none

/-- `ChatBot._check_tags`, run by `__init__`: rewrite every entry of
the class-level `TAGS` mapping through `normTagVal`; a value that is
neither a string nor a list/tuple raises `AssertionError`, aborting
construction. -/
def check_tags : List (String × PyVal) → Except String (List (String × PyVal))
  | [] => Except.ok []
  | (p, v) :: rest =>
    match normTagVal v with
    | some v' => (check_tags rest).map (fun r => (p, v') :: r)
    | none => Except.error "AssertionError: Expected tags to be str or List[str]"

/-- Is a `TAGS` value a list or a tuple (the shape `_check_tags`
guarantees after construction)? -/
def isListOrTuple : PyVal → Bool
  | PyVal.pylist _ => true
  | PyVal.pytuple _ => true
  | _ => false

/-- The fixed list of candidate on-enter response strings of each
non-default state of `OxyCSBot`: the `random.choice` pool of the
state's `on_enter_*` method (for `hi` and `suggestion`, all
combinations of the two independent choices). -/
def onEnterCandidates (s : String) : List String :=
  match s with
  | "hi" => greetings.flatMap (fun g => questions.map (fun q => g ++ " " ++ q))
  | "tell_me_more" => tell_me_more_responses
  | "emotion_detection" => emotion_responses
  | "anecdote" => [anecdote1]
  | "suggestion" =>
      suggestion_firsts.flatMap (fun a => suggestion_seconds.map (fun b => a ++ b))
  | "feel_better_question" => [on_enter_feel_better_question]
  | "feels_better" => [on_enter_feels_better]
  | _ => []

end OxyBot

namespace OxyBot

/-! ### Helper lemmas -/

theorem getD_mem {α : Type} (l : List α) (i : Nat) (d : α) (h : i < l.length) :
    l.getD i d ∈ l := by
  rw [List.getD_eq_getElem l d h]
  exact List.getElem_mem h

theorem pyLower_pyUpper (c : Char) : pyLower (pyUpper c) = pyLower c := by
  unfold pyUpper
  split <;> rfl

theorem pyLowerStr_pyUpperStr (s : String) :
    pyLowerStr (pyUpperStr s) = pyLowerStr s := by
  show String.mk ((s.data.map pyUpper).map pyLower) = String.mk (s.data.map pyLower)
  rw [List.map_map]
  exact congrArg String.mk (List.map_congr_left (fun a _ => pyLower_pyUpper a))

theorem count_flatMap_eq_sum {α β : Type} [DecidableEq β] (f : α → List β)
    (l : List α) (t : β) :
    ((l.flatMap f).count t) = (l.map (fun a => (f a).count t)).sum := by
  induction l with
  | nil => rfl
  | cons a l ih => simp [List.flatMap_cons, List.count_append, ih]

theorem findLoop_eq_some_true (bank : List String) (ws : List String) :
    findLoop bank ws = some true ↔ ∃ w ∈ ws, w ∈ bank := by
  induction ws with
  | nil => simp [findLoop]
  | cons w ws ih =>
    by_cases h : w ∈ bank <;> simp [findLoop, h, ih]

theorem findLoop_eq_none (bank : List String) (ws : List String) :
    findLoop bank ws = none ↔ ¬∃ w ∈ ws, w ∈ bank := by
  induction ws with
  | nil => simp [findLoop]
  | cons w ws ih =>
    by_cases h : w ∈ bank <;> simp [findLoop, h, ih]

theorem check_tags_forall₂ :
    ∀ {table table' : List (String × PyVal)},
      check_tags table = Except.ok table' →
      List.Forall₂ (fun a b : String × PyVal => b.1 = a.1 ∧ normTagVal a.2 = some b.2)
        table table'
  | [], table', h => by
    simp only [check_tags, Except.ok.injEq] at h
    exact h ▸ List.Forall₂.nil
  | (p, v) :: rest, table', h => by
    unfold check_tags at h
    cases hv : normTagVal v with
    | none => rw [hv] at h; exact absurd h (by simp)
    | some v' =>
      rw [hv] at h
      cases hr : check_tags rest with
      | error m => rw [hr] at h; exact absurd h (by simp [Except.map])
      | ok r =>
        rw [hr] at h
        simp only [Except.map, Except.ok.injEq] at h
        subst h
        exact List.Forall₂.cons ⟨rfl, hv⟩ (check_tags_forall₂ hr)

theorem check_tags_error_of_pyother :
    ∀ (table : List (String × PyVal)) (p : String),
      (p, PyVal.pyother) ∈ table → ∃ m, check_tags table = Except.error m
  | [], p, h => absurd h (by simp)
  | (q, v) :: rest, p, h => by
    rcases List.mem_cons.mp h with h1 | h1
    · have hv : v = PyVal.pyother := congrArg Prod.snd h1.symm
      subst hv
      exact ⟨"AssertionError: Expected tags to be str or List[str]", rfl⟩
    · obtain ⟨m, hm⟩ := check_tags_error_of_pyother rest p h1
      cases hv : normTagVal v with
      | none =>
        exact ⟨"AssertionError: Expected tags to be str or List[str]",
          by simp [check_tags, hv]⟩
      | some v' => exact ⟨m, by simp [check_tags, hv, hm, Except.map]⟩

theorem check_tags_ok_shape :
    ∀ {table table' : List (String × PyVal)},
      check_tags table = Except.ok table' → ∀ e ∈ table', isListOrTuple e.2 = true
  | [], table', h => by
    simp only [check_tags, Except.ok.injEq] at h
    subst h
    simp
  | (p, v) :: rest, table', h => by
    unfold check_tags at h
    cases hv : normTagVal v with
    | none => rw [hv] at h; exact absurd h (by simp)
    | some v' =>
      rw [hv] at h
      cases hr : check_tags rest with
      | error m => rw [hr] at h; exact absurd h (by simp [Except.map])
      | ok r =>
        rw [hr] at h
        simp only [Except.map, Except.ok.injEq] at h
        subst h
        intro e he
        rcases List.mem_cons.mp he with h1 | h1
        · subst h1
          cases v with
          | pystr a =>
            simp only [normTagVal, Option.some.injEq] at hv
            exact hv ▸ rfl
          | pylist l =>
            simp only [normTagVal, Option.some.injEq] at hv
            exact hv ▸ rfl
          | pytuple l =>
            simp only [normTagVal, Option.some.injEq] at hv
            exact hv ▸ rfl
          | pyother => exact Option.noConfusion hv
        · exact check_tags_ok_shape hr e h1

theorem dropLit_eq_some :
    ∀ (ph ms after : List Char), dropLit ph ms = some after ↔ ms = ph ++ after
  | [], ms, after => by
    simp [dropLit]
  | _ :: _, [], after => by
    simp [dropLit]
  | p :: ps, m :: ms, after => by
    by_cases hpm : p = m
    · subst hpm
      have hstep : dropLit (p :: ps) (p :: ms) = dropLit ps ms := by
        rw [dropLit, if_pos rfl]
      rw [hstep, dropLit_eq_some ps ms after]
      simp
    · have hd : dropLit (p :: ps) (m :: ms) = none := by
        rw [dropLit, if_neg hpm]
      rw [hd]
      constructor
      · intro hc
        exact Option.noConfusion hc
      · intro he
        simp only [List.cons_append, List.cons.injEq] at he
        exact absurd he.1.symm hpm

theorem getLastOpt_cons (a : Char) (l : List Char) :
    (a :: l).getLast? = some (l.getLastD a) := by
  induction l generalizing a with
  | nil => rfl
  | cons b l ih => rw [List.getLast?_cons_cons, ih, List.getLastD_cons]

theorem lastOr_cons (m : Char) (pre : List Char) (prev : Option Char) :
    lastOr (m :: pre) prev = lastOr pre (some m) := by
  cases pre with
  | nil => rfl
  | cons a l =>
    show some ((a :: l).getLastD m) = some (l.getLastD a)
    rw [List.getLastD_cons]

theorem lastOr_none (pre : List Char) : lastOr pre none = pre.getLast? := by
  cases pre with
  | nil => rfl
  | cons a l => rw [getLastOpt_cons]; rfl

/-- `matchHere` holds exactly when the phrase is a literal prefix of
the remaining message and the two `\b` boundary conditions hold. -/
theorem matchHere_iff (prev : Option Char) (c : Char) (rest msg : List Char) :
    matchHere prev (c :: rest) msg = true ↔
      ∃ after, msg = (c :: rest) ++ after
        ∧ ¬(optWord prev = isWordChar c)
        ∧ ¬(isWordChar (rest.getLastD c) = optWord after.head?) := by
  cases hd : dropLit (c :: rest) msg with
  | none =>
    have hm : matchHere prev (c :: rest) msg = false := by
      rw [matchHere, hd]
    rw [hm]
    simp only [Bool.false_eq_true, false_iff, not_exists]
    rintro after ⟨rfl, -, -⟩
    rw [(dropLit_eq_some (c :: rest) ((c :: rest) ++ after) after).mpr rfl] at hd
    exact Option.noConfusion hd
  | some after0 =>
    have hmsg : msg = (c :: rest) ++ after0 := (dropLit_eq_some _ _ _).mp hd
    have hm : matchHere prev (c :: rest) msg
        = ((optWord prev != isWordChar c)
            && (isWordChar (rest.getLastD c) != optWord after0.head?)) := by
      rw [matchHere, hd]
    rw [hm, Bool.and_eq_true, bne_iff_ne, bne_iff_ne]
    constructor
    · rintro ⟨h1, h2⟩
      exact ⟨after0, hmsg, h1, h2⟩
    · rintro ⟨after, heq, h1, h2⟩
      have ha : after = after0 := List.append_cancel_left (heq.symm.trans hmsg)
      subst ha
      exact ⟨h1, h2⟩

/-- What the left-to-right scan searches for: `searchAux` succeeds
exactly when the message decomposes around an occurrence of the phrase
whose two ends satisfy the `\b` boundary conditions (the character
before the occurrence being the last of `pre`, or the ambient `prev`
at the very start). -/
theorem searchAux_iff (c : Char) (rest : List Char) :
    ∀ (msg : List Char) (prev : Option Char),
      searchAux (c :: rest) prev msg = true ↔
        ∃ pre suf, msg = pre ++ (c :: rest) ++ suf
          ∧ ¬(optWord (lastOr pre prev) = isWordChar c)
          ∧ ¬(isWordChar (rest.getLastD c) = optWord suf.head?)
  | [], prev => by
    rw [searchAux, matchHere_iff prev c rest []]
    constructor
    · rintro ⟨after, heq, -, -⟩
      have hlen := congrArg List.length heq
      simp only [List.length_nil, List.length_append, List.length_cons] at hlen
      exact absurd hlen (by omega)
    · rintro ⟨pre, suf, heq, -, -⟩
      have hlen := congrArg List.length heq
      simp only [List.length_nil, List.length_append, List.length_cons] at hlen
      exact absurd hlen (by omega)
  | m :: ms, prev => by
    rw [searchAux, Bool.or_eq_true, matchHere_iff prev c rest (m :: ms),
        searchAux_iff c rest ms (some m)]
    constructor
    · rintro (⟨after, heq, h1, h2⟩ | ⟨pre, suf, heq, h1, h2⟩)
      · exact ⟨[], after, heq, h1, h2⟩
      · refine ⟨m :: pre, suf, congrArg (List.cons m) heq, ?_, h2⟩
        rw [lastOr_cons]
        exact h1
    · rintro ⟨pre, suf, heq, h1, h2⟩
      cases pre with
      | nil =>
        left
        exact ⟨suf, heq, h1, h2⟩
      | cons m' pre' =>
        right
        have hinj : m = m' ∧ ms = pre' ++ (c :: rest) ++ suf := by
          simpa only [List.cons_append, List.cons.injEq] using heq
        obtain ⟨rfl, hms⟩ := hinj
        refine ⟨pre', suf, hms, ?_, h2⟩
        rw [← lastOr_cons]
        exact h1

/-- If the phrase begins and ends with word characters and every
occurrence of it in the message is flanked by a word character on at
least one side (i.e. it occurs only inside a larger word), the `\b`
search fails. -/
theorem search_false_of_flanked (c : Char) (rest msg : List Char)
    (hc : isWordChar c = true) (hl : isWordChar (rest.getLastD c) = true)
    (hocc : ∀ pre suf, msg = pre ++ (c :: rest) ++ suf →
        optWord pre.getLast? = true ∨ optWord suf.head? = true) :
    searchAux (c :: rest) none msg = false := by
  cases hb : searchAux (c :: rest) none msg with
  | false => rfl
  | true =>
    obtain ⟨pre, suf, heq, h1, h2⟩ := (searchAux_iff c rest msg none).mp hb
    rw [lastOr_none] at h1
    rcases hocc pre suf heq with hw | hw
    · exact absurd (hw.trans hc.symm) h1
    · exact absurd (hl.trans hw.symm) h2

/-- String-level form of `search_false_of_flanked`, with the
word-character-ends side conditions decidable on the phrase. -/
theorem reSearch_false_of_flanked (phrase m : String)
    (hc : isWordChar (phrase.data.headD ' ') = true)
    (hl : isWordChar (phrase.data.getLastD ' ') = true)
    (hne : phrase.data ≠ [])
    (hocc : ∀ pre suf, m.data = pre ++ phrase.data ++ suf →
        optWord pre.getLast? = true ∨ optWord suf.head? = true) :
    reSearchWB phrase m = false := by
  cases hp : phrase.data with
  | nil => exact absurd hp hne
  | cons c rest =>
    rw [hp] at hc hl hocc
    have hs : searchAux (c :: rest) none m.data = false := by
      refine search_false_of_flanked c rest m.data ?_ ?_ hocc
      · simpa using hc
      · rw [List.getLastD_cons] at hl
        exact hl
    unfold reSearchWB
    rw [hp]
    exact hs

theorem filter_eq_filter_filter {α : Type} (pred q : α → Bool) :
    ∀ (T : List α), (∀ e ∈ T, q e = false → pred e = false) →
      T.filter pred = (T.filter q).filter pred
  | [], _ => rfl
  | e :: T, h => by
    have ht := filter_eq_filter_filter pred q T
      (fun x hx hq => h x (List.mem_cons_of_mem e hx) hq)
    by_cases hq : q e = true
    · rw [List.filter_cons, List.filter_cons, if_pos hq]
      by_cases hp : pred e = true
      · rw [if_pos hp, List.filter_cons, if_pos hp, ht]
      · rw [if_neg hp, List.filter_cons, if_neg hp, ht]
    · have hpf : pred e = false := h e (List.mem_cons_self e T) (by simpa using hq)
      rw [List.filter_cons, List.filter_cons, if_neg (by simp [hpf]), if_neg hq, ht]

/-- A phrase whose boundary search fails on a message contributes
nothing to `get_tags`: the table may be pruned of that key without
changing the extraction result. -/
theorem get_tags_drop_unmatched (T : List (String × List String)) (p m : String)
    (hf : reSearchWB (pyLowerStr p) (pyLowerStr m) = false) :
    get_tags T m = get_tags (T.filter (fun e => e.1 != p)) m := by
  unfold get_tags
  have himp : ∀ e ∈ T, (fun e : String × List String => e.1 != p) e = false →
      (fun e : String × List String =>
        reSearchWB (pyLowerStr e.1) (pyLowerStr m)) e = false := by
    intro e _ hq
    have he : e.1 = p := by simpa using hq
    show reSearchWB (pyLowerStr e.1) (pyLowerStr m) = false
    rw [he]
    exact hf
  rw [filter_eq_filter_filter _ _ T himp]

/-! ### The claims -/

/-- Claim C1 (code bug): `respond` does not always return a reply
string.  From the reachable default state `waiting`, a message whose
tags include `hi`, whose length is at least 20 characters, and which
contains no flagged emotion word (here with word bank `["sad"]`) makes
`respond_from_waiting` fall off the end of its nested `if` without
reaching a `return`, so `respond` returns Python `None` — contradicting
`respond`'s own docstring (`Returns: str`) and the framework contract
that handlers always return via `go_to_state` or `finish`. -/
theorem respond_waiting_none_on_long_hi_message :
    respond ["sad"] ⟨"waiting"⟩ "hello there my good old friend" 0 0
      = Ret.pyNone ⟨"waiting"⟩ := by decide

/-- Claim C2: for every finish manner with a registered `finish_*`
handler, called from any current state, `finish` returns the handler's
string and leaves the engine in the default state. -/
theorem finish_resets_state_to_default (cfg : BotConfig) (e : Engine)
    (manner r : String) (h : cfg.finish_fns manner = some r) :
    finish cfg e manner = (Except.ok r, ⟨cfg.default_state⟩) := by
  simp [finish, h]

/-- Witness for claim C2 at the `OxyCSBot` configuration: `finish`
called on `success` from the `anecdote` state returns the success
message and resets the state to `waiting`. -/
theorem finish_resets_state_to_default_check :
    finish oxyConfig ⟨"anecdote"⟩ "success"
      = (Except.ok finish_success, ⟨"waiting"⟩) :=
  finish_resets_state_to_default oxyConfig ⟨"anecdote"⟩ "success" finish_success rfl

/-- Claim C3: whenever `go_to_state` succeeds on the `OxyCSBot`
configuration, the engine's state afterwards is the requested state and
the reply is one of the fixed candidate on-enter responses declared for
that state. -/
theorem go_to_state_ok_enters_and_reply_is_candidate (e : Engine) (s : String)
    (r1 r2 : Nat) (reply : String) (e2 : Engine)
    (h : go_to_state oxyConfig e s r1 r2 = (Except.ok reply, e2)) :
    e2.state = s ∧ reply ∈ onEnterCandidates s := by
  unfold go_to_state at h
  by_cases hs : s ∈ oxyConfig.STATES
  · rw [if_pos hs] at h
    by_cases hd : s = oxyConfig.default_state
    · rw [if_pos hd] at h
      exact absurd h (by simp)
    · rw [if_neg hd] at h
      have hs' : s = "waiting" ∨ s = "hi" ∨ s = "tell_me_more"
          ∨ s = "emotion_detection" ∨ s = "anecdote" ∨ s = "suggestion"
          ∨ s = "feel_better_question" ∨ s = "feels_better" := by
        simpa [oxyConfig] using hs
      rcases hs' with rfl | rfl | rfl | rfl | rfl | rfl | rfl | rfl
      · exact absurd rfl hd
      · simp only [oxyConfig, oxy_on_enter, Prod.mk.injEq, Except.ok.injEq] at h
        obtain ⟨rfl, rfl⟩ := h
        refine ⟨rfl, ?_⟩
        exact List.mem_flatMap.mpr
          ⟨greetings.getD (r1 % 3) "",
           getD_mem greetings (r1 % 3) "" (Nat.mod_lt _ (by decide)),
           List.mem_map.mpr
             ⟨questions.getD (r2 % 4) "",
              getD_mem questions (r2 % 4) "" (Nat.mod_lt _ (by decide)), rfl⟩⟩
      · simp only [oxyConfig, oxy_on_enter, Prod.mk.injEq, Except.ok.injEq] at h
        obtain ⟨rfl, rfl⟩ := h
        exact ⟨rfl, getD_mem tell_me_more_responses (r1 % 3) ""
          (Nat.mod_lt _ (by decide))⟩
      · simp only [oxyConfig, oxy_on_enter, Prod.mk.injEq, Except.ok.injEq] at h
        obtain ⟨rfl, rfl⟩ := h
        exact ⟨rfl, getD_mem emotion_responses (r1 % 3) ""
          (Nat.mod_lt _ (by decide))⟩
      · simp only [oxyConfig, oxy_on_enter, Prod.mk.injEq, Except.ok.injEq] at h
        obtain ⟨rfl, rfl⟩ := h
        exact ⟨rfl, List.mem_singleton.mpr rfl⟩
      · simp only [oxyConfig, oxy_on_enter, Prod.mk.injEq, Except.ok.injEq] at h
        obtain ⟨rfl, rfl⟩ := h
        refine ⟨rfl, ?_⟩
        exact List.mem_flatMap.mpr
          ⟨suggestion_firsts.getD (r1 % 2) "",
           getD_mem suggestion_firsts (r1 % 2) "" (Nat.mod_lt _ (by decide)),
           List.mem_map.mpr
             ⟨suggestion_seconds.getD (r2 % 2) "",
              getD_mem suggestion_seconds (r2 % 2) "" (Nat.mod_lt _ (by decide)),
              rfl⟩⟩
      · simp only [oxyConfig, oxy_on_enter, Prod.mk.injEq, Except.ok.injEq] at h
        obtain ⟨rfl, rfl⟩ := h
        exact ⟨rfl, List.mem_singleton.mpr rfl⟩
      · simp only [oxyConfig, oxy_on_enter, Prod.mk.injEq, Except.ok.injEq] at h
        obtain ⟨rfl, rfl⟩ := h
        exact ⟨rfl, List.mem_singleton.mpr rfl⟩
  · rw [if_neg hs] at h
    exact absurd h (by simp)

/-- Witness for claim C3: entering the `anecdote` state from `waiting`
succeeds, moves the state to `anecdote`, and the reply is the (unique)
candidate anecdote text. -/
theorem go_to_state_ok_enters_check :
    Engine.state ⟨"anecdote"⟩ = "anecdote"
      ∧ anecdote1 ∈ onEnterCandidates "anecdote" :=
  go_to_state_ok_enters_and_reply_is_candidate ⟨"waiting"⟩ "anecdote" 0 0
    anecdote1 ⟨"anecdote"⟩ rfl

/-- Claim C4: `go_to_state` called with the default state or with an
undeclared state fails (the failed `assert` raises before `on_enter` is
looked up or the state is assigned), and the engine's state is
unchanged. -/
theorem go_to_state_invalid_fails_state_unchanged (cfg : BotConfig) (e : Engine)
    (s : String) (r1 r2 : Nat) (h : s = cfg.default_state ∨ s ∉ cfg.STATES) :
    (∃ m, (go_to_state cfg e s r1 r2).1 = Except.error m)
      ∧ (go_to_state cfg e s r1 r2).2 = e := by
  unfold go_to_state
  by_cases hs : s ∈ cfg.STATES
  · have hd : s = cfg.default_state := h.resolve_right (fun hn => hn hs)
    rw [if_pos hs, if_pos hd]
    exact ⟨⟨_, rfl⟩, rfl⟩
  · rw [if_neg hs]
    exact ⟨⟨_, rfl⟩, rfl⟩

/-- Witness for claim C4: `go_to_state` on the default state `waiting`
of `OxyCSBot` fails and leaves the state at `waiting`. -/
theorem go_to_state_invalid_check :
    (∃ m, (go_to_state oxyConfig ⟨"waiting"⟩ "waiting" 0 0).1 = Except.error m)
      ∧ (go_to_state oxyConfig ⟨"waiting"⟩ "waiting" 0 0).2 = ⟨"waiting"⟩ :=
  go_to_state_invalid_fails_state_unchanged oxyConfig ⟨"waiting"⟩ "waiting" 0 0
    (Or.inl rfl)

/-- Claim C5: tag extraction is case-insensitive — for every tag table
and message, the extracted count of every tag is the same on the
message and on its upper-cased version (the message is lower-cased
before matching, and ASCII lower-casing identifies the two). -/
theorem get_tags_case_insensitive (table : List (String × List String))
    (m t : String) :
    (get_tags table (pyUpperStr m)).count t = (get_tags table m).count t := by
  unfold get_tags
  rw [pyLowerStr_pyUpperStr]

/-- Claim C6: every phrase of the tag table, sent as the whole message,
contributes its full tag set to the extraction result; and for every
phrase of the table and every message in which the (lower-cased) phrase
occurs only as a strict substring of a larger word — every occurrence
flanked by a word character on at least one side — the `\b` search for
that phrase fails, so the phrase contributes nothing: extraction is
unchanged if its entry is pruned from the table.  In particular `hi`
inside `history` contributes nothing. -/
theorem tags_whole_phrase_matching (p : String) (tl : List String)
    (h : (p, tl) ∈ TAGS) :
    (∀ t ∈ tl, t ∈ get_tags TAGS p)
      ∧ (∀ m : String,
          (∀ pre suf, (pyLowerStr m).data = pre ++ (pyLowerStr p).data ++ suf →
              optWord pre.getLast? = true ∨ optWord suf.head? = true) →
          reSearchWB (pyLowerStr p) (pyLowerStr m) = false
            ∧ get_tags TAGS m = get_tags (TAGS.filter (fun e => e.1 != p)) m)
      ∧ "hi" ∉ get_tags TAGS "history" := by
  refine ⟨?_, ?_, by decide⟩
  · fin_cases h <;> decide
  · intro m hocc
    have hf : reSearchWB (pyLowerStr p) (pyLowerStr m) = false := by
      fin_cases h <;>
        exact reSearch_false_of_flanked _ _ (by decide) (by decide) (by decide) hocc
    exact ⟨hf, get_tags_drop_unmatched TAGS p m hf⟩

/-- Witness for claim C6 at the first table entry: the message `okay`
yields its tag `success`. -/
theorem tags_whole_phrase_matching_check : "success" ∈ get_tags TAGS "okay" :=
  (tags_whole_phrase_matching "okay" ["success"] (by decide)).1 "success"
    (by decide)

/-- Claim C7: the count of a tag is the sum, over the phrases of the
table that are present in the message (a presence check, independent of
how many times a phrase textually occurs), of the tag's multiplicity in
that phrase's tag list.  Concretely, a phrase present three times still
counts once (`bye bye bye`), and overlapping phrases (`bye` and
`good bye` inside `good bye`) each contribute independently. -/
theorem tag_count_presence_sum (m t : String) :
    (get_tags TAGS m).count t
      = ((TAGS.filter (fun e => reSearchWB (pyLowerStr e.1) (pyLowerStr m))).map
          (fun e => e.2.count t)).sum
    ∧ (get_tags TAGS "bye bye bye").count "bye" = 1
    ∧ (get_tags TAGS "good bye").count "bye" = 2 := by
  refine ⟨?_, by decide, by decide⟩
  unfold get_tags
  exact count_flatMap_eq_sum _ _ _

/-- Counterexample to claim C8 as stated: on a text containing no
flagged word, `emotion_word_found` does not return the boolean `False`;
it falls off the end of its loop and returns `None`. -/
theorem emotion_word_found_returns_none_not_false :
    emotion_word_found ["sad"] "hello" ≠ some false
      ∧ emotion_word_found ["sad"] "hello" = none := by decide

/-- Claim C8 (amended): `emotion_word_found` returns `True` exactly
when some whitespace-delimited token of the lower-cased text is a word
of the loaded word bank, and otherwise returns `None` (a falsy
non-boolean), never `False`. -/
theorem emotion_word_found_spec (bank : List String) (s : String) :
    (emotion_word_found bank s = some true
        ↔ ∃ w ∈ pySplit (pyLowerStr s), w ∈ bank)
      ∧ (emotion_word_found bank s = none
        ↔ ¬∃ w ∈ pySplit (pyLowerStr s), w ∈ bank) :=
  ⟨findLoop_eq_some_true bank _, findLoop_eq_none bank _⟩

/-- Claim C9: because `emotion_word_found` splits the lower-cased text
on whitespace only and compares tokens for exact equality, a flagged
word immediately followed by punctuation is not detected (`I am sad.`
tokenises to `sad.`), while the same word delimited by spaces is
(`I am sad`). -/
theorem punctuation_blocks_word_detection (bank : List String)
    (h1 : "sad" ∈ bank) (h2 : "sad." ∉ bank) (h3 : "i" ∉ bank)
    (h4 : "am" ∉ bank) :
    emotion_word_found bank "I am sad" = some true
      ∧ emotion_word_found bank "I am sad." = none := by
  constructor
  · show findLoop bank (pySplit (pyLowerStr "I am sad")) = some true
    have hs : pySplit (pyLowerStr "I am sad") = ["i", "am", "sad"] := by decide
    rw [hs]
    simp [findLoop, h1, h3, h4]
  · show findLoop bank (pySplit (pyLowerStr "I am sad.")) = none
    have hs : pySplit (pyLowerStr "I am sad.") = ["i", "am", "sad."] := by decide
    rw [hs]
    simp [findLoop, h2, h3, h4]

/-- Witness for claim C9 at the one-word bank `["sad"]`. -/
theorem punctuation_blocks_word_detection_check :
    emotion_word_found ["sad"] "I am sad" = some true
      ∧ emotion_word_found ["sad"] "I am sad." = none :=
  punctuation_blocks_word_detection ["sad"] (by decide) (by decide) (by decide)
    (by decide)

/-- Claim C10: when `_check_tags` succeeds, the rewritten `TAGS`
mapping is entrywise the normalisation of the original — same keys in
the same order, every plain-string value replaced by its singleton list
(`normTagVal`), so every value is a list or tuple — and any table
containing a value that is neither a string nor a list/tuple makes
`_check_tags` (and hence construction) fail hard. -/
theorem check_tags_spec (table table' : List (String × PyVal))
    (h : check_tags table = Except.ok table') :
    (∀ e ∈ table', isListOrTuple e.2 = true)
      ∧ List.Forall₂
          (fun a b : String × PyVal => b.1 = a.1 ∧ normTagVal a.2 = some b.2)
          table table'
      ∧ (∀ (t2 : List (String × PyVal)) (p : String),
          (p, PyVal.pyother) ∈ t2 → ∃ m, check_tags t2 = Except.error m) :=
  ⟨check_tags_ok_shape h, check_tags_forall₂ h, check_tags_error_of_pyother⟩

/-- Witness for claim C10: a well-formed one-entry table normalises,
and from its spec instance a table holding a non-string non-list value
is rejected. -/
theorem check_tags_spec_check :
    ∃ m, check_tags [("x", PyVal.pyother)] = Except.error m :=
  (check_tags_spec [("okay", PyVal.pystr "success")]
      [("okay", PyVal.pylist ["success"])] rfl).2.2
    [("x", PyVal.pyother)] "x" (List.mem_singleton.mpr rfl)

end OxyBot
